import Mathlib

/-!
# Verification of the Datadog CLI asynchronous log batching engine

Shallow embedding of `internal/platform/datadog/logger.go` (the
`DatadogHandler` slog handler): the attribute flattener (`addAttrToMap`),
the severity mapper (`levelToStatus`), entry construction and enqueueing
(`Handle`), the buffer/flush discipline (`flushLocked`, `processLogs`),
the delivery transport (`sendLogs`) and the lifecycle (`Close`).
-/

namespace Datadog

/-! ## Attribute model

A `slog.Attr` is a key together with a value; a value is either a leaf
(scalar or array, delivered as-is by `attr.Value.Any()`) or a nested
group of attributes (`slog.KindGroup`). -/

/-- A leaf value carried by an attribute: scalars and arrays are inserted
into the flat map unchanged by `addAttrToMap`. -/
inductive Leaf where
  | str (s : String)
  | int (n : Int)
  | bool (b : Bool)
  | arr (l : List Leaf)
deriving Repr

/-- A `slog.Attr`: a key with either a leaf value or a nested group. -/
inductive Attr where
  | leaf (key : String) (v : Leaf)
  | group (key : String) (children : List Attr)
deriving Repr

/-- The key of an attribute. -/
def Attr.key : Attr → String
  | .leaf k _ => k
  | .group k _ => k

/-- The flat attribute map `map[string]interface{}`: an association list
with Go-map assignment semantics (assignment to an existing key
overwrites in place, assignment to a fresh key adds it). -/
abbrev AttrMap := List (String × Leaf)

/-- Go map assignment `m[k] = v`: overwrite the entry for `k` when
present, otherwise add the binding. -/
def mapAssign (m : AttrMap) (k : String) (v : Leaf) : AttrMap :=
  if m.any (fun p => p.1 = k) then
    m.map (fun p => if p.1 = k then (k, v) else p)
  else m ++ [(k, v)]

/-- Go map lookup `m[k]`. -/
def mapLookup (m : AttrMap) (k : String) : Option Leaf :=
  (m.find? (fun p => p.1 = k)).map Prod.snd

/-- The dotted key computed at the top of `addAttrToMap`:
`key := attr.Key; if prefix != "" { key = prefix + "." + key }`. -/
def dotKey (pfx : String) (k : String) : String :=
  if pfx = "" then k else pfx ++ "." ++ k

mutual

/-- `addAttrToMap(m, prefix, attr)` from logger.go lines 344-366: compute
the dotted key; for a group recurse into each child with the computed key
as the new prefix; for every other kind assign the value at the key. -/
def addAttrToMap (m : AttrMap) (pfx : String) (a : Attr) : AttrMap :=
  match a with
  | .leaf k v => mapAssign m (dotKey pfx k) v
  | .group k children => addAttrsToMap m (dotKey pfx k) children

/-- The `for _, a := range attr.Value.Group()` loop inside `addAttrToMap`:
fold the children left to right into the map. -/
def addAttrsToMap (m : AttrMap) (pfx : String) (l : List Attr) : AttrMap :=
  match l with
  | [] => m
  | a :: rest => addAttrsToMap (addAttrToMap m pfx a) pfx rest

end

/-! ## Severity mapper

`slog.Level` is an integer; the named levels are Debug = -4, Info = 0,
Warn = 4, Error = 8. -/

def levelDebug : Int := -4
def levelInfo : Int := 0
def levelWarn : Int := 4
def levelError : Int := 8

/-- `levelToStatus` from logger.go lines 330-341. -/
def levelToStatus (level : Int) : String :=
  if level ≥ levelError then "error"
  else if level ≥ levelWarn then "warning"
  else if level ≥ levelInfo then "info"
  else "debug"

/-! ## Handler, entries and `Handle` -/

/-- The two fields of `config.Config` the handler reads. -/
structure Config where
  apiKey : String
  site : String
deriving Repr

/-- The fallback `slog.Handler`, modelled abstractly as the chain of
derivations applied to a base handler: `WithAttrs`/`WithGroup` on the
Datadog handler wrap the fallback in the corresponding derivation. -/
inductive Fallback where
  | base
  | withAttrs (f : Fallback) (attrs : List Attr)
  | withGroup (f : Fallback) (name : String)
deriving Repr

/-- `DatadogLogEntry` from logger.go lines 30-39. -/
structure LogEntry where
  message : String
  status : String
  service : String
  ddsource : String
  hostname : String
  timestamp : Int
  attributes : AttrMap
  environment : String
deriving Repr

/-- The immutable per-handler fields of `DatadogHandler` (logger.go lines
42-56).  The shared mutable state — the ingestion channel, the buffer and
the stop channel — is threaded explicitly through the functions below;
`WithAttrs`/`WithGroup` copies share it by construction. -/
structure DatadogHandler where
  cfg : Config
  minLevel : Int
  fallback : Fallback
  service : String
  environment : String
  hostname : String
deriving Repr

/-- `BatchSize = 20` (logger.go line 23). -/
def BatchSize : Nat := 20

/-- Capacity of the ingestion channel `make(chan DatadogLogEntry, 100)`
(logger.go line 106). -/
def logChanCap : Nat := 100

/-- A `slog.Record` as far as `Handle` reads it: level, message, time
(`UnixNano`) and the attributes added at the call site. -/
structure Record where
  level : Int
  message : String
  timeNano : Int
  attrs : List Attr
deriving Repr

/-- The caller information `runtime.Caller(4)` may report. -/
structure CallerInfo where
  file : String
  line : Int
  function : Option String
deriving Repr

/-- `Enabled` (logger.go lines 123-125): `level >= h.minLevel`. -/
def DatadogHandler.Enabled (h : DatadogHandler) (level : Int) : Bool :=
  level ≥ h.minLevel

/-- The caller attributes added by `Handle` lines 151-158: `file`, `line`
and, when resolvable, `function`; nothing when `runtime.Caller` fails. -/
def callerAttrs (m : AttrMap) (c : Option CallerInfo) : AttrMap :=
  match c with
  | none => m
  | some ci =>
    let m := mapAssign m "file" (.str ci.file)
    let m := mapAssign m "line" (.int ci.line)
    match ci.function with
    | none => m
    | some fn => mapAssign m "function" (.str fn)

/-- The `DatadogLogEntry` built by `Handle` lines 139-164: fixed fields
from the handler, status from the severity mapper, timestamp in
milliseconds (Go truncating division of `UnixNano`), caller attributes,
then every record attribute flattened with the empty prefix. -/
def buildEntry (h : DatadogHandler) (r : Record) (c : Option CallerInfo) :
    LogEntry where
  message := r.message
  status := levelToStatus r.level
  service := h.service
  ddsource := "datadog-cli"
  hostname := h.hostname
  timestamp := (r.timeNano).tdiv 1000000
  attributes := addAttrsToMap (callerAttrs [] c) "" r.attrs
  environment := h.environment

/-- The error value `Handle` can return. -/
inductive GoError where
  | channelFull (msg : String)
deriving Repr

/-- What one `Handle` call did: the synchronous fallback-sink writes it
performed, the ingestion-channel contents afterwards, and the error it
returned (if any). -/
structure HandleResult where
  fallbackWrites : List (Fallback × Record)
  queue : List LogEntry
  returned : Option GoError
deriving Repr

/-- `Handle` (logger.go lines 128-176): write the record to the fallback
handler first (modelled as succeeding — the spec's always-available sink);
return nil if the level is below the minimum; otherwise build the entry
and try a non-blocking send on the ingestion channel, returning the
channel-full error when it is at capacity. -/
def DatadogHandler.Handle (h : DatadogHandler) (q : List LogEntry)
    (r : Record) (c : Option CallerInfo) : HandleResult :=
  let fb := [(h.fallback, r)]
  if ¬ h.Enabled r.level then
    { fallbackWrites := fb, queue := q, returned := none }
  else
    let entry := buildEntry h r c
    if q.length < logChanCap then
      { fallbackWrites := fb, queue := q ++ [entry], returned := none }
    else
      { fallbackWrites := fb, queue := q,
        returned := some (.channelFull "datadog log channel full, dropping log") }

/-- `WithAttrs` (logger.go lines 179-197): a new handler value with the
same configuration and the same shared channel/buffer/worker; only the
fallback is derived with the extra attributes. -/
def DatadogHandler.WithAttrs (h : DatadogHandler) (attrs : List Attr) :
    DatadogHandler :=
  { h with fallback := .withAttrs h.fallback attrs }

/-- `WithGroup` (logger.go lines 200-218): same, deriving the fallback
with the group name. -/
def DatadogHandler.WithGroup (h : DatadogHandler) (name : String) :
    DatadogHandler :=
  { h with fallback := .withGroup h.fallback name }

/-! ## Buffer, flush and the background worker -/

/-- A batch handed to `sendLogs` by one flush. -/
abbrev Batch := List LogEntry

/-- `flushLocked` (logger.go lines 269-281): a no-op on an empty buffer;
otherwise copy the buffer into a batch, reset the buffer to length zero
and spawn `sendLogs` on the batch.  Returns the new buffer together with
the batches handed to the (asynchronous) delivery goroutine — delivery
itself runs outside the buffer lock and is modelled separately by
`sendLogs`. -/
def flushLocked (buf : List LogEntry) : List LogEntry × List Batch :=
  if buf.length = 0 then (buf, [])
  else ([], [buf])

/-- `flush` (logger.go lines 261-266): take the buffer lock and run
`flushLocked`. -/
def flush (buf : List LogEntry) : List LogEntry × List Batch :=
  flushLocked buf

/-- The three wake sources of the `select` in `processLogs` (logger.go
lines 236-256): the stop channel firing, an entry arriving on the
ingestion channel, and the flush ticker. -/
inductive WorkerEvent where
  | stopObserved
  | recvEntry
  | tick
deriving Repr

/-- The worker-visible state: the ingestion-channel contents, the batch
buffer, and whether the `processLogs` goroutine has returned. -/
structure WorkerState where
  queue : List LogEntry
  buffer : List LogEntry
  exited : Bool
deriving Repr

/-- One iteration of the `processLogs` loop (logger.go lines 232-258).
`stopObserved`: flush whatever is in the buffer and return — the
ingestion channel is not read again.  `recvEntry`: take the next queued
entry (the case is not ready on an empty channel), append it to the
buffer, and flush immediately when the buffer has reached `BatchSize`.
`tick`: flush unconditionally.  A worker that has returned does nothing.
Returns the new state and the batches handed to delivery. -/
def processStep (s : WorkerState) (ev : WorkerEvent) :
    WorkerState × List Batch :=
  if s.exited then (s, [])
  else
    match ev with
    | .stopObserved =>
      let (b, ds) := flush s.buffer
      ({ s with buffer := b, exited := true }, ds)
    | .recvEntry =>
      match s.queue with
      | [] => (s, [])
      | e :: rest =>
        let buf := s.buffer ++ [e]
        if BatchSize ≤ buf.length then
          let (b, ds) := flushLocked buf
          ({ s with queue := rest, buffer := b }, ds)
        else
          ({ s with queue := rest, buffer := buf }, [])
    | .tick =>
      let (b, ds) := flush s.buffer
      ({ s with buffer := b }, ds)

/-! ## Lifecycle: `Close` -/

/-- A Go run-time panic relevant here: `close` of an already-closed
channel panics (Go language specification, "Close"). -/
inductive GoPanic where
  | closeOfClosedChannel
deriving Repr

/-- Handler lifecycle state: whether `stopChan` has been closed, plus the
worker state. -/
structure HandlerLifecycle where
  stopChanClosed : Bool
  worker : WorkerState
deriving Repr

/-- `Close` (logger.go lines 221-229): `close(h.stopChan)` followed by
`h.wg.Wait()`.  Closing the stop channel a second time is a run-time
panic.  Otherwise the worker observes the stop signal, runs the stop case
of its `select` and returns, at which point `wg.Wait` unblocks.  Returns
the batches the final flush handed to delivery. -/
def Close (st : HandlerLifecycle) :
    Except GoPanic (HandlerLifecycle × List Batch) :=
  if st.stopChanClosed then .error .closeOfClosedChannel
  else
    let (w, ds) := processStep st.worker .stopObserved
    .ok ({ stopChanClosed := true, worker := w }, ds)

/-! ## Delivery transport: `sendLogs` -/

/-- The observable shape of the single HTTP request `sendLogs` makes. -/
structure NetworkCall where
  method : String
  url : String
  contentType : String
  apiKeyHeader : String
  body : Batch
deriving Repr

/-- The environment's answer to the request: a transport error or an HTTP
status. -/
inductive HttpResponse where
  | transportError (msg : String)
  | status (code : Nat) (statusText : String)
deriving Repr

/-- `sendLogs` (logger.go lines 284-327): return immediately when the API
key is empty; otherwise default the site, build the v2 logs intake URL,
marshal the batch, POST it with the `DD-API-KEY` and content-type
headers, and report a transport error or a >= 300 status to stderr.
Returns the network calls performed and the stderr error lines written. -/
def sendLogs (cfg : Config) (logs : Batch) (resp : HttpResponse) :
    List NetworkCall × List String :=
  if cfg.apiKey = "" then ([], [])
  else
    let site := if cfg.site = "" then "datadoghq.com" else cfg.site
    let url := "https://http-intake.logs." ++ site ++ "/api/v2/logs"
    let call : NetworkCall :=
      { method := "POST", url := url, contentType := "application/json",
        apiKeyHeader := cfg.apiKey, body := logs }
    match resp with
    | .transportError msg =>
      ([call], ["Error sending logs to Datadog: " ++ msg])
    | .status code statusText =>
      if 300 ≤ code then ([call], ["Error from Datadog logs API: " ++ statusText])
      else ([call], [])

/-- All deliveries of a run: every batch handed to delivery goes through
one `sendLogs` invocation; collect the network calls and stderr lines. -/
def runDeliveries (cfg : Config) (batches : List Batch)
    (resp : Batch → HttpResponse) : List NetworkCall × List String :=
  batches.foldl
    (fun acc b =>
      let r := sendLogs cfg b (resp b)
      (acc.1 ++ r.1, acc.2 ++ r.2))
    ([], [])

/-! ## Concrete sample values used by witnesses and counterexamples -/

/-- A sample handler: empty API key, defaults otherwise, `info` minimum. -/
def sampleHandler : DatadogHandler where
  cfg := { apiKey := "", site := "" }
  minLevel := levelInfo
  fallback := .base
  service := "datadog-cli"
  environment := ""
  hostname := "host"

/-- A sample record at `info` with one scalar attribute. -/
def sampleRecord : Record where
  level := levelInfo
  message := "hello"
  timeNano := 0
  attrs := [.leaf "k" (.str "v")]

/-- A sample record below the `info` minimum (at `debug`). -/
def debugRecord : Record where
  level := levelDebug
  message := "quiet"
  timeNano := 0
  attrs := []

/-- A record whose only attribute has the empty key. -/
def emptyKeyRecord : Record where
  level := levelInfo
  message := "m"
  timeNano := 0
  attrs := [.leaf "" (.str "x")]

/-- A sample log entry. -/
def sampleEntry : LogEntry :=
  buildEntry sampleHandler sampleRecord none

/-- An ingestion channel filled to its capacity of 100. -/
def fullQueue : List LogEntry :=
  List.replicate logChanCap sampleEntry

/-- A freshly constructed handler's lifecycle state: stop channel open,
worker running with empty queue and buffer. -/
def freshLifecycle : HandlerLifecycle where
  stopChanClosed := false
  worker := { queue := [], buffer := [], exited := false }

/-- A running worker with one queued entry and one buffered entry. -/
def loadedWorker : WorkerState where
  queue := [sampleEntry]
  buffer := [sampleEntry]
  exited := false

/-! ## Helper lemmas -/

/-- The key of a Go map: the first components of the association list. -/
def keys (m : AttrMap) : List String := m.map Prod.fst

theorem mapLookup_mapAssign_self (m : AttrMap) (k : String) (v : Leaf) :
    mapLookup (mapAssign m k v) k = some v := by
  induction m with
  | nil => simp [mapAssign, mapLookup]
  | cons hd tl ih =>
    by_cases hk : hd.1 = k
    · simp [mapAssign, mapLookup, hk]
    · simp only [mapAssign, List.any_cons] at *
      simp only [hk, decide_eq_true_eq, decide_False, Bool.false_or]
      by_cases ha : tl.any (fun p => decide (p.1 = k))
      · simp only [ha, if_true] at ih ⊢
        simp [mapLookup, List.find?, hk] at ih ⊢
        exact ih
      · simp only [ha, if_false] at ih ⊢
        simp [mapLookup, List.find?, hk] at ih ⊢
        exact ih

theorem keys_mapAssign (m : AttrMap) (k : String) (v : Leaf) :
    ∀ k' ∈ keys (mapAssign m k v), k' ∈ keys m ∨ k' = k := by
  intro k' hk'
  unfold mapAssign at hk'
  split at hk'
  · left
    unfold keys at hk' ⊢
    simp only [List.map_map, List.mem_map] at hk' ⊢
    obtain ⟨p, hp, hpk⟩ := hk'
    refine ⟨p, hp, ?_⟩
    by_cases h : p.1 = k
    · simp only [Function.comp, h, if_true] at hpk
      exact h.trans hpk
    · simpa [Function.comp, h] using hpk
  · unfold keys at hk'
    rw [List.map_append, List.mem_append] at hk'
    rcases hk' with h | h
    · exact Or.inl h
    · simp at h
      exact Or.inr h

/-- A string starting with a nonempty string is nonempty. -/
theorem append_ne_empty_left (p s : String) (hp : p ≠ "") : p ++ s ≠ "" := by
  intro h
  apply hp
  have hl : (p ++ s).length = 0 := by rw [h]; rfl
  rw [String.length_append] at hl
  have : p.length = 0 := by omega
  cases p with
  | mk data =>
    cases data with
    | nil => rfl
    | cons a l => simp [String.length] at this

/-- Shape of the worker's stop case: a running worker that observes the
stop signal flushes the buffer, leaves the queue untouched and exits. -/
theorem processStep_stopObserved (s : WorkerState) (hex : s.exited = false) :
    processStep s .stopObserved
      = ({ s with buffer := [], exited := true },
         if s.buffer.length = 0 then [] else [s.buffer]) := by
  have hstep : processStep s .stopObserved
      = ({ s with buffer := (flushLocked s.buffer).1, exited := true },
         (flushLocked s.buffer).2) := by
    simp only [processStep, hex, Bool.false_eq_true, if_false, flush]
  rw [hstep]
  by_cases h : s.buffer.length = 0
  · have hb : s.buffer = [] := List.length_eq_zero.mp h
    simp [flushLocked, h, hb]
  · simp [flushLocked, h]

mutual

/-- Every key present after `addAttrToMap` was already a key of the map or
has the form `dotKey pfx c` for some string `c`. -/
theorem addAttrToMap_keys (m : AttrMap) (pfx : String) (a : Attr) :
    ∀ k ∈ keys (addAttrToMap m pfx a), k ∈ keys m ∨ ∃ c, k = dotKey pfx c := by
  match a with
  | .leaf ka v =>
    intro k hk
    rcases keys_mapAssign m (dotKey pfx ka) v k hk with h | h
    · exact Or.inl h
    · exact Or.inr ⟨ka, h⟩
  | .group ka children =>
    intro k hk
    have hrec := addAttrsToMap_keys m (dotKey pfx ka) children k hk
    rcases hrec with h | h
    · exact Or.inl h
    · by_cases hp : pfx = ""
      · subst hp
        exact Or.inr ⟨k, rfl⟩
      · obtain ⟨c, hc⟩ := h
        refine Or.inr ⟨ka ++ "." ++ c, ?_⟩
        have hka : pfx ++ "." ++ ka ≠ "" :=
          append_ne_empty_left (pfx ++ ".") ka (append_ne_empty_left pfx "." hp)
        have hka2 : pfx ++ ("." ++ ka) ≠ "" := by
          simpa [String.append_assoc] using hka
        rw [hc]
        simp [dotKey, hp, hka2, String.append_assoc]

/-- The list version of `addAttrToMap_keys`, for the group-children loop. -/
theorem addAttrsToMap_keys (m : AttrMap) (pfx : String) (l : List Attr) :
    ∀ k ∈ keys (addAttrsToMap m pfx l), k ∈ keys m ∨ ∃ c, k = dotKey pfx c := by
  match l with
  | [] =>
    intro k hk
    exact Or.inl hk
  | a :: rest =>
    intro k hk
    have hrec := addAttrsToMap_keys (addAttrToMap m pfx a) pfx rest k hk
    rcases hrec with h | h
    · rcases addAttrToMap_keys m pfx a k h with h2 | h2
      · exact Or.inl h2
      · exact Or.inr h2
    · exact Or.inr h

end

/-! ## Claim theorems -/

/-- Claim C6: flattening a nested attribute group at key `k` under a
non-empty prefix `p` recurses with prefix `p.k` (just `k` when `p` is
empty); scalar and array leaves are inserted under their computed dotted
key; re-insertion of an existing key overwrites the prior value
(last-write-wins); and flattening `{a: {b: 1, c: {d: 2}}}` yields
`{"a.b": 1, "a.c.d": 2}`. -/
theorem flatten_dotted_keys_lww (m : AttrMap) (p ka kc : String) (v : Leaf)
    (children : List Attr) (hp : p ≠ "") :
    addAttrToMap m p (.group ka children) = addAttrsToMap m (p ++ "." ++ ka) children
    ∧ addAttrToMap m "" (.group ka children) = addAttrsToMap m ka children
    ∧ addAttrToMap m p (.leaf ka v) = mapAssign m (p ++ "." ++ ka) v
    ∧ addAttrToMap m "" (.leaf ka v) = mapAssign m ka v
    ∧ mapLookup (mapAssign m kc v) kc = some v
    ∧ addAttrToMap [] ""
        (.group "a" [.leaf "b" (.int 1), .group "c" [.leaf "d" (.int 2)]])
      = [("a.b", .int 1), ("a.c.d", .int 2)] := by
  refine ⟨?_, ?_, ?_, ?_, mapLookup_mapAssign_self m kc v, rfl⟩ <;>
    simp [addAttrToMap, dotKey, hp]

/-- Witness for C6 at concrete inputs. -/
theorem flatten_dotted_keys_lww_witness :
    addAttrToMap [] "p" (.group "g" [.leaf "b" (.int 1)])
      = addAttrsToMap [] ("p" ++ "." ++ "g") [.leaf "b" (.int 1)]
    ∧ addAttrToMap [] "" (.group "g" [.leaf "b" (.int 1)])
      = addAttrsToMap [] "g" [.leaf "b" (.int 1)]
    ∧ addAttrToMap [] "p" (.leaf "g" (.int 7))
      = mapAssign [] ("p" ++ "." ++ "g") (.int 7)
    ∧ addAttrToMap [] "" (.leaf "g" (.int 7)) = mapAssign [] "g" (.int 7)
    ∧ mapLookup (mapAssign [] "z" (.int 7)) "z" = some (.int 7)
    ∧ addAttrToMap [] ""
        (.group "a" [.leaf "b" (.int 1), .group "c" [.leaf "d" (.int 2)]])
      = [("a.b", .int 1), ("a.c.d", .int 2)] := by
  have h := flatten_dotted_keys_lww [] "p" "g" "z" (.int 7) [.leaf "b" (.int 1)]
    (by decide)
  exact h

/-- Claim C7: the severity mapper is total: every integer severity maps to
exactly one of debug/info/warning/error by the fixed thresholds
(error ≥ 8, warning ≥ 4, info ≥ 0, else debug); values below the lowest
threshold map to debug, values above the highest to error, and a value
exactly at a threshold maps to that threshold's label. -/
theorem levelToStatus_total_thresholds (level : Int) :
    (levelToStatus level = "debug" ∨ levelToStatus level = "info" ∨
     levelToStatus level = "warning" ∨ levelToStatus level = "error")
    ∧ (levelError ≤ level → levelToStatus level = "error")
    ∧ (levelWarn ≤ level ∧ level < levelError → levelToStatus level = "warning")
    ∧ (levelInfo ≤ level ∧ level < levelWarn → levelToStatus level = "info")
    ∧ (level < levelInfo → levelToStatus level = "debug")
    ∧ (level < levelDebug → levelToStatus level = "debug")
    ∧ levelToStatus levelError = "error"
    ∧ levelToStatus levelWarn = "warning"
    ∧ levelToStatus levelInfo = "info"
    ∧ levelToStatus levelDebug = "debug" := by
  unfold levelToStatus levelError levelWarn levelInfo levelDebug
  refine ⟨?_, ?_, ?_, ?_, ?_, ?_, by norm_num, by norm_num, by norm_num,
    by norm_num⟩ <;>
    intros <;> split_ifs <;> first | rfl | omega | tauto

/-- Witness for C7: a value above the highest threshold maps to error and
one below the lowest maps to debug. -/
theorem levelToStatus_total_thresholds_witness :
    levelToStatus 100 = "error" ∧ levelToStatus (-10) = "debug" :=
  ⟨(levelToStatus_total_thresholds 100).2.1 (by decide),
   (levelToStatus_total_thresholds (-10)).2.2.2.2.1 (by decide)⟩

/-- Claim C9: when the configured API key is empty, delivery is a no-op
with no error: whatever batches a run of submissions followed by `close()`
hands to delivery, zero network calls are performed and zero error lines
are produced. -/
theorem no_delivery_without_apiKey (cfg : Config) (batches : List Batch)
    (resp : Batch → HttpResponse) (hkey : cfg.apiKey = "") :
    runDeliveries cfg batches resp = ([], []) := by
  have hs : ∀ b, sendLogs cfg b (resp b) = ([], []) := fun b => by
    simp [sendLogs, hkey]
  unfold runDeliveries
  have key : ∀ (l : List Batch) (acc : List NetworkCall × List String),
      l.foldl (fun acc b =>
        let r := sendLogs cfg b (resp b)
        (acc.1 ++ r.1, acc.2 ++ r.2)) acc = acc := by
    intro l
    induction l with
    | nil => intro acc; rfl
    | cons b bs ih =>
      intro acc
      simp only [List.foldl_cons, hs b]
      simpa using ih acc
  exact key batches ([], [])

/-- Witness for C9: a thousand-entry run with an empty API key makes no
network call and writes no error line. -/
theorem no_delivery_without_apiKey_witness :
    runDeliveries { apiKey := "", site := "" }
      (List.replicate 50 (List.replicate 20 sampleEntry))
      (fun _ => .status 202 "202 Accepted") = ([], []) :=
  no_delivery_without_apiKey { apiKey := "", site := "" }
    (List.replicate 50 (List.replicate 20 sampleEntry))
    (fun _ => .status 202 "202 Accepted") rfl

/-- Claim C4: a flush of a non-empty buffer copies out exactly the buffer
contents as one batch in arrival order and resets the buffer to empty,
handing the batch to the (asynchronous) delivery goroutine; a flush of an
empty buffer produces no delivery; and receiving the entry that brings the
buffer to `BatchSize` triggers an immediate flush of exactly those entries
without a timer event. -/
theorem flush_copy_reset_and_batch_trigger (buf : List LogEntry)
    (s : WorkerState) (e : LogEntry) (rest : List LogEntry)
    (hbuf : buf ≠ []) (hex : s.exited = false) (hq : s.queue = e :: rest)
    (hlen : (s.buffer ++ [e]).length = BatchSize) :
    flushLocked buf = ([], [buf])
    ∧ flushLocked [] = ([], [])
    ∧ processStep s .recvEntry
      = ({ s with queue := rest, buffer := [] }, [s.buffer ++ [e]]) := by
  refine ⟨?_, rfl, ?_⟩
  · simp [flushLocked, List.length_eq_zero, hbuf]
  · have hne : (s.buffer ++ [e]).length ≠ 0 := by
      rw [hlen]; decide
    simp only [processStep, hex, Bool.false_eq_true, if_false, hq]
    simp [flushLocked, hlen, hne, BatchSize]

/-- Witness for C4: a nineteen-entry buffer plus one received entry
flushes immediately as a twenty-entry batch. -/
theorem flush_copy_reset_and_batch_trigger_witness :
    flushLocked [sampleEntry] = ([], [[sampleEntry]])
    ∧ flushLocked [] = ([], [])
    ∧ processStep
        { queue := [sampleEntry], buffer := List.replicate 19 sampleEntry,
          exited := false } .recvEntry
      = ({ queue := [], buffer := [], exited := false },
         [List.replicate 19 sampleEntry ++ [sampleEntry]]) :=
  flush_copy_reset_and_batch_trigger [sampleEntry]
    { queue := [sampleEntry], buffer := List.replicate 19 sampleEntry,
      exited := false }
    sampleEntry [] (by simp) rfl rfl (by simp [BatchSize])

/-- Claim C10: the log entry built and enqueued by `Handle` on a handler
derived via `WithAttrs` or `WithGroup` is identical to the one the base
handler builds for the same record; the derivation is applied only to the
fallback handler and never appears in the entries bound for the remote
endpoint. -/
theorem derived_handler_same_entry (h : DatadogHandler) (attrs : List Attr)
    (name : String) (q : List LogEntry) (r : Record) (c : Option CallerInfo) :
    buildEntry (h.WithAttrs attrs) r c = buildEntry h r c
    ∧ buildEntry (h.WithGroup name) r c = buildEntry h r c
    ∧ ((h.WithAttrs attrs).Handle q r c).queue = (h.Handle q r c).queue
    ∧ ((h.WithAttrs attrs).Handle q r c).returned = (h.Handle q r c).returned
    ∧ ((h.WithGroup name).Handle q r c).queue = (h.Handle q r c).queue
    ∧ ((h.WithGroup name).Handle q r c).returned = (h.Handle q r c).returned
    ∧ ((h.WithAttrs attrs).Handle q r c).fallbackWrites
      = [(.withAttrs h.fallback attrs, r)]
    ∧ ((h.WithGroup name).Handle q r c).fallbackWrites
      = [(.withGroup h.fallback name, r)] := by
  refine ⟨rfl, rfl, ?_, ?_, ?_, ?_, ?_, ?_⟩ <;>
    simp only [DatadogHandler.Handle, DatadogHandler.WithAttrs,
      DatadogHandler.WithGroup, DatadogHandler.Enabled] <;>
    split_ifs <;> rfl

/-- Claim C5 counterexample: at a severity strictly below the minimum,
`enabled` is false and the queue is untouched, but the Fallback Sink write
is NOT skipped — `Handle` writes the record to the fallback handler before
the level check. -/
theorem below_min_still_writes_fallback_cex :
    sampleHandler.Enabled debugRecord.level = false
    ∧ (sampleHandler.Handle [] debugRecord none).queue = []
    ∧ (sampleHandler.Handle [] debugRecord none).returned = none
    ∧ (sampleHandler.Handle [] debugRecord none).fallbackWrites
      = [(sampleHandler.fallback, debugRecord)]
    ∧ (sampleHandler.Handle [] debugRecord none).fallbackWrites ≠ [] := by
  refine ⟨rfl, rfl, rfl, rfl, ?_⟩
  rw [show (sampleHandler.Handle [] debugRecord none).fallbackWrites
    = [(sampleHandler.fallback, debugRecord)] from rfl]
  simp

/-- Claim C5 (amended): for every severity strictly below the configured
minimum, `enabled` returns false and a submit is a no-op with respect to
the ingestion queue with no error returned, but the record is still
written to the Fallback Sink (the fallback write precedes the filter). -/
theorem below_min_noop_queue_but_fallback (h : DatadogHandler)
    (q : List LogEntry) (r : Record) (c : Option CallerInfo)
    (hlt : r.level < h.minLevel) :
    h.Enabled r.level = false
    ∧ h.Handle q r c
      = { fallbackWrites := [(h.fallback, r)], queue := q, returned := none } := by
  have he : h.Enabled r.level = false := by
    simp only [DatadogHandler.Enabled, decide_eq_false_iff_not, not_le]
    omega
  exact ⟨he, by simp [DatadogHandler.Handle, he]⟩

/-- Witness for the amended C5 at a concrete below-minimum record. -/
theorem below_min_noop_queue_but_fallback_witness :
    sampleHandler.Enabled debugRecord.level = false
    ∧ sampleHandler.Handle [sampleEntry] debugRecord none
      = { fallbackWrites := [(sampleHandler.fallback, debugRecord)],
          queue := [sampleEntry], returned := none } :=
  below_min_noop_queue_but_fallback sampleHandler [sampleEntry] debugRecord
    none (by decide)

/-- Claim C3 (code bug): a submission that finds the ingestion queue full
drops the entry without blocking, but the drop is NOT reported via the
Fallback Sink with a marker message — `Handle` returns the channel-full
error to its caller instead, contradicting its own inline comment
("Channel full, log to fallback"). Only the ordinary pre-filter fallback
write of the record itself happens. -/
theorem handle_full_queue_returns_error :
    (sampleHandler.Handle fullQueue sampleRecord none).returned
      = some (.channelFull "datadog log channel full, dropping log")
    ∧ (sampleHandler.Handle fullQueue sampleRecord none).queue = fullQueue
    ∧ (sampleHandler.Handle fullQueue sampleRecord none).fallbackWrites
      = [(sampleHandler.fallback, sampleRecord)] :=
  ⟨rfl, rfl, rfl⟩

/-- Claim C2 counterexample: with one entry still on the ingestion queue
and an empty buffer, observing the stop signal makes the worker flush
nothing and exit; the queued entry is never consumed into the buffer and
never flushed — it is discarded, and the exited worker reacts to no
further event. -/
theorem stop_discards_queued_entry_cex :
    processStep { queue := [sampleEntry], buffer := [], exited := false }
        .stopObserved
      = ({ queue := [sampleEntry], buffer := [], exited := true }, [])
    ∧ processStep { queue := [sampleEntry], buffer := [], exited := true }
        .stopObserved
      = ({ queue := [sampleEntry], buffer := [], exited := true }, [])
    ∧ processStep { queue := [sampleEntry], buffer := [], exited := true }
        .recvEntry
      = ({ queue := [sampleEntry], buffer := [], exited := true }, [])
    ∧ processStep { queue := [sampleEntry], buffer := [], exited := true }
        .tick
      = ({ queue := [sampleEntry], buffer := [], exited := true }, []) :=
  ⟨rfl, rfl, rfl, rfl⟩

/-- Claim C2 (amended): once the stop signal is observed the worker
accepts no new entries, performs one final flush of exactly the buffer
contents and exits; entries still on the ingestion queue at that moment
are left unconsumed (discarded, not drained), and the exited worker
delivers nothing further. -/
theorem stop_flushes_buffer_not_queue (s : WorkerState)
    (hex : s.exited = false) :
    (processStep s .stopObserved).1.queue = s.queue
    ∧ (processStep s .stopObserved).1.buffer = []
    ∧ (processStep s .stopObserved).1.exited = true
    ∧ (processStep s .stopObserved).2
      = (if s.buffer.length = 0 then [] else [s.buffer])
    ∧ ∀ ev, processStep (processStep s .stopObserved).1 ev
      = ((processStep s .stopObserved).1, []) := by
  rw [processStep_stopObserved s hex]
  exact ⟨rfl, rfl, rfl, rfl, fun ev => rfl⟩

/-- Witness for the amended C2 at a loaded queue and non-empty buffer. -/
theorem stop_flushes_buffer_not_queue_witness :
    (processStep loadedWorker .stopObserved).1.queue = loadedWorker.queue
    ∧ (processStep loadedWorker .stopObserved).1.buffer = []
    ∧ (processStep loadedWorker .stopObserved).1.exited = true
    ∧ (processStep loadedWorker .stopObserved).2
      = (if loadedWorker.buffer.length = 0 then [] else [loadedWorker.buffer])
    ∧ ∀ ev, processStep (processStep loadedWorker .stopObserved).1 ev
      = ((processStep loadedWorker .stopObserved).1, []) :=
  stop_flushes_buffer_not_queue loadedWorker rfl

/-- Claim C1 counterexample: the first `Close` succeeds and leaves the
worker stopped with an empty buffer, but a second `Close` panics (Go
run-time panic: close of an already-closed channel) — it is not a safe
no-op. -/
theorem close_twice_panics_cex :
    Close freshLifecycle
      = .ok ({ stopChanClosed := true,
               worker := { queue := [], buffer := [], exited := true } }, [])
    ∧ Close { stopChanClosed := true,
              worker := { queue := [], buffer := [], exited := true } }
      = .error .closeOfClosedChannel :=
  ⟨rfl, rfl⟩

/-- Claim C1 (amended): calling `close()` once on a running handler is
safe: after it returns the buffer is empty, the worker has exited and
attempts no further delivery; but a second `close()` panics with a
close-of-closed-channel run-time error instead of being a no-op. -/
theorem close_once_safe_second_close_panics (st : HandlerLifecycle)
    (hc : st.stopChanClosed = false) (hw : st.worker.exited = false) :
    ∃ st2 ds, Close st = .ok (st2, ds)
      ∧ st2.worker.buffer = []
      ∧ st2.worker.exited = true
      ∧ (∀ ev, processStep st2.worker ev = (st2.worker, []))
      ∧ Close st2 = .error .closeOfClosedChannel := by
  refine ⟨{ stopChanClosed := true,
            worker := { st.worker with buffer := [], exited := true } },
    (if st.worker.buffer.length = 0 then [] else [st.worker.buffer]),
    ?_, rfl, rfl, fun ev => rfl, rfl⟩
  simp [Close, hc, processStep_stopObserved st.worker hw]

/-- Witness for the amended C1 at a fresh handler lifecycle. -/
theorem close_once_safe_second_close_panics_witness :
    ∃ st2 ds, Close freshLifecycle = .ok (st2, ds)
      ∧ st2.worker.buffer = []
      ∧ st2.worker.exited = true
      ∧ (∀ ev, processStep st2.worker ev = (st2.worker, []))
      ∧ Close st2 = .error .closeOfClosedChannel :=
  close_once_safe_second_close_panics freshLifecycle rfl rfl

/-- Claim C8 counterexample: a log entry built for a record whose only
attribute has the empty key carries `""` as a key of its attributes map —
the map does not "never contain" the empty key. -/
theorem empty_key_attribute_cex :
    (buildEntry sampleHandler emptyKeyRecord none).attributes
      = [("", .str "x")]
    ∧ "" ∈ keys (buildEntry sampleHandler emptyKeyRecord none).attributes :=
  ⟨rfl, by decide⟩

/-- Claim C8 (amended): every key produced by flattening an attribute
under a non-empty prefix `p` has the form `p.childKey`, recursively at
every depth; but the attributes map can contain the key `""` when a
top-level attribute itself has the empty key, so the map does not never
contain `""`. -/
theorem flatten_key_form_nonempty_pfx (m : AttrMap) (pfx : String)
    (a : Attr) (hp : pfx ≠ "") :
    ∀ k ∈ keys (addAttrToMap m pfx a),
      k ∈ keys m ∨ ∃ c, k = pfx ++ "." ++ c := by
  intro k hk
  rcases addAttrToMap_keys m pfx a k hk with h | h
  · exact Or.inl h
  · obtain ⟨c, hc⟩ := h
    refine Or.inr ⟨c, ?_⟩
    simpa [dotKey, hp, String.append_assoc] using hc

/-- Witness for the amended C8 at a concrete nested group. -/
theorem flatten_key_form_nonempty_pfx_witness :
    "p.g.b" ∈ keys (addAttrToMap [] "p" (.group "g" [.leaf "b" (.int 1)]))
    ∧ ("p.g.b" ∈ keys ([] : AttrMap)
       ∨ ∃ c, "p.g.b" = "p" ++ "." ++ c) :=
  ⟨by decide,
   flatten_key_form_nonempty_pfx [] "p" (.group "g" [.leaf "b" (.int 1)])
     (by decide) "p.g.b" (by decide)⟩

end Datadog
